import Mathlib

/-!
Verification development for the card-stack UI widget (src/MyWebsite/card-stack.js).

JS numbers are modelled as exact rationals; card ranks (zIndex values) as
integers; the card collection as functions out of Fin n or as lists indexed by
spawn order.  DOM access, CSS classes, video handling and the info-panel /
detail-page collaborators are external to the state modelled here, as the
specification treats them as external collaborators.
-/

/-- Linear interpolation, card-stack.js lines 7-9. -/
def lerp (a b t : ℚ) : ℚ := a + (b - a) * t

/-- Clamp, card-stack.js lines 11-13: Math.min(Math.max(value, min), max). -/
def clamp (value lo hi : ℚ) : ℚ := min (max value lo) hi

/-- Range remap, card-stack.js lines 15-17. -/
def remap (value inMin inMax outMin outMax : ℚ) : ℚ :=
  outMin + (outMax - outMin) * ((value - inMin) / (inMax - inMin))

theorem clamp_mem (value lo hi : ℚ) (h : lo ≤ hi) :
    lo ≤ clamp value lo hi ∧ clamp value lo hi ≤ hi := by
  unfold clamp
  exact ⟨le_min (le_max_right value lo) h, min_le_right _ _⟩

theorem clamp_mono (v w lo hi : ℚ) (h : v ≤ w) :
    clamp v lo hi ≤ clamp w lo hi := by
  unfold clamp
  exact min_le_min (max_le_max h (le_refl lo)) (le_refl hi)

/-- The two configured radius bands; the constructor hard-codes them
(card-stack.js lines 372-373) and getScaledRadius (lines 423-432) selects one
by its type tag. -/
inductive RadiusType
  | scale
  | sibling
deriving DecidableEq

/-- Base band constants from the constructor (card-stack.js line 372). -/
def baseScaleRadius : ℚ × ℚ := (100, 300)

/-- Base band constants from the constructor (card-stack.js line 373). -/
def baseSiblingRadius : ℚ × ℚ := (150, 350)

/-- getScaledRadius, card-stack.js lines 423-432: scales the selected base
band by the viewport scale factor. -/
def getScaledRadius (scaleFactor : ℚ) (t : RadiusType) : ℚ × ℚ :=
  let base := match t with
    | RadiusType.scale => baseScaleRadius
    | RadiusType.sibling => baseSiblingRadius
  (base.1 * scaleFactor, base.2 * scaleFactor)

/-- updateSizes, card-stack.js lines 410-421: recomputes the viewport scale
factor as clamp(min(innerWidth, innerHeight) / 800, 0.4, 1.5).  The CSS
variable updates are presentation only; the function is modelled by the scale
factor it stores. -/
def updateSizes (innerWidth innerHeight : ℚ) : ℚ :=
  clamp (min innerWidth innerHeight / 800) (2/5) (3/2)

/-- C9: lerp(a,b,0) = a, lerp(a,b,1) = b, and remap of a value onto its own
band is the identity for a < b and x in [a, b]. -/
theorem C9_lerp_remap_identities (a b x : ℚ) :
    lerp a b 0 = a ∧ lerp a b 1 = b ∧
    (a < b → a ≤ x → x ≤ b → remap x a b a b = x) := by
  refine ⟨by unfold lerp; ring, by unfold lerp; ring, fun hab hax hxb => ?_⟩
  unfold remap
  have hne : b - a ≠ 0 := sub_ne_zero.mpr (ne_of_gt hab)
  field_simp

/-- Witness for C9 at a = 2, b = 5, x = 3. -/
theorem C9_lerp_remap_witness : remap 3 2 5 2 5 = 3 :=
  (C9_lerp_remap_identities 2 5 3).2.2 (by norm_num) (by norm_num) (by norm_num)

/-- C10: after every updateSizes call the scale factor is in [0.4, 1.5], so
both scaled radius bands keep strict ordering and the remap denominators
(band max minus band min) are nonzero. -/
theorem C10_scale_factor_bounds (innerWidth innerHeight : ℚ) :
    2/5 ≤ updateSizes innerWidth innerHeight ∧
    updateSizes innerWidth innerHeight ≤ 3/2 ∧
    ∀ t : RadiusType,
      (getScaledRadius (updateSizes innerWidth innerHeight) t).1 <
        (getScaledRadius (updateSizes innerWidth innerHeight) t).2 ∧
      (getScaledRadius (updateSizes innerWidth innerHeight) t).2 -
        (getScaledRadius (updateSizes innerWidth innerHeight) t).1 ≠ 0 := by
  obtain ⟨h1, h2⟩ := clamp_mem (min innerWidth innerHeight / 800) (2/5) (3/2) (by norm_num)
  refine ⟨h1, h2, fun t => ?_⟩
  have hpos : 0 < updateSizes innerWidth innerHeight := lt_of_lt_of_le (by norm_num) h1
  cases t <;> simp only [getScaledRadius, baseScaleRadius, baseSiblingRadius] <;>
    constructor <;> nlinarith

/-- Multiset of zIndex ranks across the n live cards; the card collection is
indexed by spawn order (Card.index), its zIndex field is the function value. -/
def zRanks (n : ℕ) (z : Fin n → ℤ) : Multiset ℤ := Multiset.map z Finset.univ.val

/-- The rank multiset {0, ..., n-1} demanded by the permutation invariant. -/
def rankRange (n : ℕ) : Multiset ℤ := Multiset.map (fun k : ℕ => (k : ℤ)) (Multiset.range n)

/-- The permutation invariant: the ranks form exactly {0, ..., n-1}. -/
def IsRankPerm (n : ℕ) (z : Fin n → ℤ) : Prop := zRanks n z = rankRange n

instance (n : ℕ) (z : Fin n → ℤ) : Decidable (IsRankPerm n z) := by
  unfold IsRankPerm; infer_instance

/-- bringToFront, card-stack.js lines 973-987: every other card with a rank
above the target rank moves down one; the target card becomes the top rank
n - 1.  The info-display refresh it triggers is external presentation. -/
def bringToFront (n : ℕ) (z : Fin n → ℤ) (t : Fin n) : Fin n → ℤ :=
  fun c =>
    if c = t then (n : ℤ) - 1
    else if z c > z t then z c - 1 else z c

/-- updateCardOrder, card-stack.js lines 989-1019: no-op when newIndex equals
the dragged rank; otherwise shifts the cards between the old and new rank by
one and places the dragged card at newIndex.  The info-display refresh is
external presentation. -/
def updateCardOrder (n : ℕ) (z : Fin n → ℤ) (t : Fin n) (newIndex : ℤ) : Fin n → ℤ :=
  if newIndex = z t then z
  else fun c =>
    if c = t then newIndex
    else if newIndex < z t then
      if newIndex ≤ z c ∧ z c < z t then z c + 1 else z c
    else
      if z c ≤ newIndex ∧ z t < z c then z c - 1 else z c

/-- Grid-mode per-tick zIndex assignment for an idle card, card-stack.js
lines 279-289: the hovered element gets rank 100, every other card is reset
to its spawn index.  hoveredIndex is the index of the hovered card element,
none when nothing (or a clone) is hovered. -/
def gridIdleZIndex (hoveredIndex : Option ℕ) (cardIndex : ℕ) : ℤ :=
  match hoveredIndex with
  | some h => if cardIndex = h then 100 else (cardIndex : ℤ)
  | none => (cardIndex : ℤ)

theorem isRankPerm_iff (n : ℕ) (z : Fin n → ℤ) :
    IsRankPerm n z ↔ (Function.Injective z ∧ ∀ c, 0 ≤ z c ∧ z c < (n : ℤ)) := by
  constructor
  · intro h
    have hnod : (zRanks n z).Nodup := by
      rw [h]
      unfold rankRange
      exact Multiset.Nodup.map (fun a b hab => by exact_mod_cast hab) (Multiset.nodup_range n)
    constructor
    · intro a b hab
      refine Multiset.inj_on_of_nodup_map hnod a ?_ b ?_ hab <;> simp
    · intro c
      have hc : z c ∈ zRanks n z := Multiset.mem_map.mpr ⟨c, by simp, rfl⟩
      rw [h] at hc
      unfold rankRange at hc
      obtain ⟨k, hk, hkz⟩ := Multiset.mem_map.mp hc
      rw [Multiset.mem_range] at hk
      omega
  · rintro ⟨hinj, hbd⟩
    have hnod : (zRanks n z).Nodup := Multiset.Nodup.map hinj Finset.univ.nodup
    have hle : zRanks n z ≤ rankRange n := by
      rw [Multiset.le_iff_count]
      intro a
      by_cases ha : a ∈ zRanks n z
      · have h1 : Multiset.count a (zRanks n z) ≤ 1 :=
          Multiset.nodup_iff_count_le_one.mp hnod a
        obtain ⟨c, _, hc⟩ := Multiset.mem_map.mp ha
        have : a ∈ rankRange n := by
          unfold rankRange
          refine Multiset.mem_map.mpr ⟨(z c).toNat, ?_, ?_⟩
          · rw [Multiset.mem_range]
            have := hbd c
            omega
          · have := hbd c
            omega
        have h2 : 0 < Multiset.count a (rankRange n) := Multiset.count_pos.mpr this
        omega
      · rw [Multiset.count_eq_zero_of_not_mem ha]
        exact Nat.zero_le _
    have hcard : Multiset.card (rankRange n) ≤ Multiset.card (zRanks n z) := by
      unfold rankRange zRanks
      simp
    exact Multiset.eq_of_le_of_card_le hle hcard

theorem bringToFront_preserves (n : ℕ) (z : Fin n → ℤ) (t : Fin n)
    (h : IsRankPerm n z) : IsRankPerm n (bringToFront n z t) := by
  rw [isRankPerm_iff] at h ⊢
  obtain ⟨hinj, hbd⟩ := h
  have hn : 0 < n := t.pos
  constructor
  · intro a b hab
    unfold bringToFront at hab
    by_cases ha : a = t <;> by_cases hb : b = t
    · rw [ha, hb]
    · exfalso
      have hzb : z b ≠ z t := fun h => hb (hinj h)
      have h1 := hbd b
      have h2 := hbd t
      rw [if_pos ha, if_neg hb] at hab
      split_ifs at hab <;> omega
    · exfalso
      have hza : z a ≠ z t := fun h => ha (hinj h)
      have h1 := hbd a
      have h2 := hbd t
      rw [if_neg ha, if_pos hb] at hab
      split_ifs at hab <;> omega
    · have hza : z a ≠ z t := fun h => ha (hinj h)
      have hzb : z b ≠ z t := fun h => hb (hinj h)
      rw [if_neg ha, if_neg hb] at hab
      have : z a = z b := by split_ifs at hab <;> omega
      exact hinj this
  · intro c
    have h1 := hbd c
    have h2 := hbd t
    unfold bringToFront
    split_ifs <;> omega

theorem updateCardOrder_preserves (n : ℕ) (z : Fin n → ℤ) (t : Fin n) (newIndex : ℤ)
    (h : IsRankPerm n z) (h0 : 0 ≤ newIndex) (h1 : newIndex < (n : ℤ)) :
    IsRankPerm n (updateCardOrder n z t newIndex) := by
  by_cases hni : newIndex = z t
  · unfold updateCardOrder
    rw [if_pos hni]
    exact h
  · rw [isRankPerm_iff] at h ⊢
    obtain ⟨hinj, hbd⟩ := h
    have hupd : updateCardOrder n z t newIndex = fun c =>
        if c = t then newIndex
        else if newIndex < z t then
          if newIndex ≤ z c ∧ z c < z t then z c + 1 else z c
        else
          if z c ≤ newIndex ∧ z t < z c then z c - 1 else z c := by
      unfold updateCardOrder
      rw [if_neg hni]
    rw [hupd]
    constructor
    · intro a b hab
      simp only at hab
      by_cases ha : a = t <;> by_cases hb : b = t
      · rw [ha, hb]
      · exfalso
        have hzb : z b ≠ z t := fun h => hb (hinj h)
        have hb1 := hbd b
        have hb2 := hbd t
        rw [if_pos ha, if_neg hb] at hab
        split_ifs at hab <;> omega
      · exfalso
        have hza : z a ≠ z t := fun h => ha (hinj h)
        have ha1 := hbd a
        have ha2 := hbd t
        rw [if_neg ha, if_pos hb] at hab
        split_ifs at hab <;> omega
      · have hza : z a ≠ z t := fun h => ha (hinj h)
        have hzb : z b ≠ z t := fun h => hb (hinj h)
        rw [if_neg ha, if_neg hb] at hab
        have : z a = z b := by split_ifs at hab <;> omega
        exact hinj this
    · intro c
      have hc1 := hbd c
      have hc2 := hbd t
      simp only
      split_ifs <;> omega

/-- C1 (amended): every call to bringToFront, and every call to
updateCardOrder with the in-range rank its only caller
(updateZIndexFromDistance) passes, carries the rank multiset {0,...,n-1} to
itself; the full claim that the invariant holds at every instant fails, see
the grid-hover counterexample. -/
theorem C1_rank_permutation_preserved (n : ℕ) (z : Fin n → ℤ) (t : Fin n)
    (newIndex : ℤ) (hperm : IsRankPerm n z)
    (h0 : 0 ≤ newIndex) (h1 : newIndex < (n : ℤ)) :
    IsRankPerm n (bringToFront n z t) ∧
    IsRankPerm n (updateCardOrder n z t newIndex) :=
  ⟨bringToFront_preserves n z t hperm,
   updateCardOrder_preserves n z t newIndex hperm h0 h1⟩

/-- Witness for C1 with three cards holding the identity ranking, target
card 1, new rank 0. -/
theorem C1_rank_permutation_witness :
    IsRankPerm 3 (bringToFront 3 (fun i => (i.val : ℤ)) 1) ∧
    IsRankPerm 3 (updateCardOrder 3 (fun i => (i.val : ℤ)) 1 0) :=
  C1_rank_permutation_preserved 3 (fun i => (i.val : ℤ)) 1 0
    (by decide) (by decide) (by decide)

/-- Counterexample to C1 as stated: the initial eight-card state (spawnCard
assigns zIndex = index) satisfies the invariant, but one grid-mode tick with
card 0 hovered assigns it rank 100, so the rank multiset is no longer
{0,...,7} even though the state is reached only through the controller
operations and per-tick updates. -/
theorem C1_grid_hover_breaks_permutation :
    IsRankPerm 8 (fun c : Fin 8 => (c.val : ℤ)) ∧
    ¬ IsRankPerm 8 (fun c : Fin 8 => gridIdleZIndex (some 0) c.val) := by
  decide

/-- C2: pointwise description of both z-order operations on a collection
whose ranks form a permutation of {0,...,n-1}. -/
theorem C2_zorder_ops_spec (n : ℕ) (z : Fin n → ℤ) (t : Fin n) (newIndex : ℤ)
    (hperm : IsRankPerm n z) :
    (bringToFront n z t t = (n : ℤ) - 1 ∧
      ∀ c, c ≠ t → bringToFront n z t c = (if z t < z c then z c - 1 else z c)) ∧
    (newIndex = z t → updateCardOrder n z t newIndex = z) ∧
    (newIndex ≠ z t →
      updateCardOrder n z t newIndex t = newIndex ∧
      ∀ c, c ≠ t →
        updateCardOrder n z t newIndex c =
          (if newIndex < z t then
            (if newIndex ≤ z c ∧ z c < z t then z c + 1 else z c)
          else
            (if z c ≤ newIndex ∧ z t < z c then z c - 1 else z c))) := by
  refine ⟨⟨?_, fun c hc => ?_⟩, fun he => ?_, fun hne => ⟨?_, fun c hc => ?_⟩⟩
  · unfold bringToFront
    rw [if_pos rfl]
  · unfold bringToFront
    rw [if_neg hc]
  · unfold updateCardOrder
    rw [if_pos he]
  · unfold updateCardOrder
    rw [if_neg hne]
    simp
  · unfold updateCardOrder
    rw [if_neg hne]
    simp only [if_neg hc]

/-- Witness for C2 with two cards holding the identity ranking: bringing the
bottom card to the front makes its rank 1. -/
theorem C2_zorder_ops_witness :
    bringToFront 2 (fun i => (i.val : ℤ)) 0 0 = 1 := by
  have h := (C2_zorder_ops_spec 2 (fun i => (i.val : ℤ)) 0 0 (by decide)).1.1
  simpa using h

/-- Global view mode of the stack controller (card-stack.js line 388). -/
inductive ViewMode
  | stack
  | grid
  | expanded
deriving DecidableEq

/-- Per-card pointer interaction state (card-stack.js lines 33-59): current
position, drag target, drag flag and offset, click-vs-drag discriminator and
velocity tracking.  Pixel coordinates are exact rationals. -/
structure CardPtr where
  x : ℚ
  y : ℚ
  targetX : ℚ
  targetY : ℚ
  isDragging : Bool
  dragOffsetX : ℚ
  dragOffsetY : ℚ
  pointerDownPosX : ℚ
  pointerDownPosY : ℚ
  hasDragged : Bool
  lastX : ℚ
  lastY : ℚ
  velocityX : ℚ
  velocityY : ℚ
deriving DecidableEq

/-- Outcome of onPointerUp: a click requests expandCard, a finished drag
releases to the origin, anything else is ignored. -/
inductive UpOutcome
  | expandRequested
  | dragReleased
  | ignored
deriving DecidableEq

/-- onPointerDown, card-stack.js lines 102-136: ignored in expanded mode;
records the down position and clears the drag discriminator; in grid mode
stops there (click only); in stack mode starts a drag, captures the offset
from the container center and requests bringToFront (the returned Bool). -/
def onPointerDown (mode : ViewMode) (s : CardPtr)
    (clientX clientY centerX centerY : ℚ) : CardPtr × Bool :=
  if mode = ViewMode.expanded then (s, false)
  else
    let s1 := { s with pointerDownPosX := clientX, pointerDownPosY := clientY,
                       hasDragged := false }
    if mode = ViewMode.grid then (s1, false)
    else ({ s1 with isDragging := true,
                    dragOffsetX := clientX - centerX - s1.x,
                    dragOffsetY := clientY - centerY - s1.y,
                    lastX := clientX, lastY := clientY }, true)

/-- onPointerMove, card-stack.js lines 138-166: flags hasDragged once the
pointer is more than 10 px from the down position (the source compares the
Euclidean distance with 10; squaring both sides gives the equivalent exact
test used here); then, only while dragging, recomputes the drag target
relative to the container center and the frame-to-frame velocity.  The
first-visit tip dismissal is external presentation. -/
def onPointerMove (s : CardPtr) (clientX clientY centerX centerY : ℚ) : CardPtr :=
  let s1 :=
    if (clientX - s.pointerDownPosX)^2 + (clientY - s.pointerDownPosY)^2 > 100
    then { s with hasDragged := true } else s
  if s1.isDragging = false then s1
  else { s1 with targetX := clientX - centerX - s1.dragOffsetX,
                 targetY := clientY - centerY - s1.dragOffsetY,
                 velocityX := clientX - s1.lastX,
                 velocityY := clientY - s1.lastY,
                 lastX := clientX, lastY := clientY }

/-- onPointerUp, card-stack.js lines 168-187: a sequence that never passed
the drag threshold (outside expanded mode) is a click and requests
expandCard; otherwise an active drag ends with the target reset to the
origin; otherwise nothing happens. -/
def onPointerUp (mode : ViewMode) (s : CardPtr) : CardPtr × UpOutcome :=
  if s.hasDragged = false ∧ mode ≠ ViewMode.expanded then
    ({ s with isDragging := false }, UpOutcome.expandRequested)
  else if s.isDragging = false then (s, UpOutcome.ignored)
  else ({ s with isDragging := false, targetX := 0, targetY := 0 },
        UpOutcome.dragReleased)

/-- Folds a list of pointer-move events (client coordinates) over the card
state, with a fixed container center. -/
def runMoves (centerX centerY : ℚ) (s : CardPtr) (moves : List (ℚ × ℚ)) : CardPtr :=
  moves.foldl (fun st p => onPointerMove st p.1 p.2 centerX centerY) s

theorem onPointerMove_inv (s : CardPtr) (clientX clientY centerX centerY : ℚ) :
    (onPointerMove s clientX clientY centerX centerY).pointerDownPosX = s.pointerDownPosX ∧
    (onPointerMove s clientX clientY centerX centerY).pointerDownPosY = s.pointerDownPosY ∧
    (onPointerMove s clientX clientY centerX centerY).isDragging = s.isDragging ∧
    (onPointerMove s clientX clientY centerX centerY).hasDragged =
      (s.hasDragged ||
        decide ((clientX - s.pointerDownPosX)^2 + (clientY - s.pointerDownPosY)^2 > 100)) := by
  unfold onPointerMove
  by_cases h1 : (clientX - s.pointerDownPosX)^2 + (clientY - s.pointerDownPosY)^2 > 100 <;>
    by_cases h2 : s.isDragging = false <;>
    simp [h1, h2]

theorem runMoves_inv (centerX centerY : ℚ) (moves : List (ℚ × ℚ)) (s : CardPtr) :
    (runMoves centerX centerY s moves).pointerDownPosX = s.pointerDownPosX ∧
    (runMoves centerX centerY s moves).pointerDownPosY = s.pointerDownPosY ∧
    (runMoves centerX centerY s moves).isDragging = s.isDragging ∧
    (runMoves centerX centerY s moves).hasDragged =
      (s.hasDragged || moves.any fun p =>
        decide ((p.1 - s.pointerDownPosX)^2 + (p.2 - s.pointerDownPosY)^2 > 100)) := by
  induction moves generalizing s with
  | nil => simp [runMoves]
  | cons p ms ih =>
    obtain ⟨e1, e2, e3, e4⟩ := onPointerMove_inv s p.1 p.2 centerX centerY
    have hstep : runMoves centerX centerY s (p :: ms) =
        runMoves centerX centerY (onPointerMove s p.1 p.2 centerX centerY) ms := rfl
    obtain ⟨i1, i2, i3, i4⟩ := ih (onPointerMove s p.1 p.2 centerX centerY)
    rw [hstep]
    refine ⟨by rw [i1, e1], by rw [i2, e2], by rw [i3, e3], ?_⟩
    rw [i4, e1, e2, e4, List.any_cons, Bool.or_assoc]

/-- C3: for a pointer-down / moves / pointer-up sequence on a card outside
expanded mode, if no move is farther than 10 px from the down position the
release is a click that requests expandCard and never a drag release; if
some move exceeds 10 px the release never requests expandCard, and in stack
mode (where pointer-down started a drag) it ends the drag with targetX and
targetY reset to 0. -/
theorem C3_click_vs_drag (m : ViewMode) (hm : m ≠ ViewMode.expanded)
    (s0 : CardPtr) (p0x p0y centerX centerY : ℚ) (moves : List (ℚ × ℚ)) :
    ((∀ p ∈ moves, (p.1 - p0x)^2 + (p.2 - p0y)^2 ≤ 100) →
      (onPointerUp m (runMoves centerX centerY
        ((onPointerDown m s0 p0x p0y centerX centerY).1) moves)).2 =
        UpOutcome.expandRequested) ∧
    ((∃ p ∈ moves, (p.1 - p0x)^2 + (p.2 - p0y)^2 > 100) →
      (onPointerUp m (runMoves centerX centerY
        ((onPointerDown m s0 p0x p0y centerX centerY).1) moves)).2 ≠
        UpOutcome.expandRequested ∧
      (m = ViewMode.stack →
        (onPointerUp m (runMoves centerX centerY
          ((onPointerDown m s0 p0x p0y centerX centerY).1) moves)).2 =
          UpOutcome.dragReleased ∧
        (onPointerUp m (runMoves centerX centerY
          ((onPointerDown m s0 p0x p0y centerX centerY).1) moves)).1.targetX = 0 ∧
        (onPointerUp m (runMoves centerX centerY
          ((onPointerDown m s0 p0x p0y centerX centerY).1) moves)).1.targetY = 0)) := by
  set s1 := (onPointerDown m s0 p0x p0y centerX centerY).1 with hs1
  have hdown : s1.pointerDownPosX = p0x ∧ s1.pointerDownPosY = p0y ∧
      s1.hasDragged = false ∧ (m = ViewMode.stack → s1.isDragging = true) := by
    rw [hs1]
    unfold onPointerDown
    rw [if_neg hm]
    cases m with
    | stack => simp
    | grid => simp
    | expanded => exact absurd rfl hm
  obtain ⟨hd1, hd2, hd3, hd4⟩ := hdown
  obtain ⟨r1, r2, r3, r4⟩ := runMoves_inv centerX centerY moves s1
  set s2 := runMoves centerX centerY s1 moves with hs2
  constructor
  · intro hall
    have hhd : s2.hasDragged = false := by
      rw [r4, hd3, hd1, hd2, Bool.false_or, List.any_eq_false]
      intro p hp
      simpa using not_lt.mpr (hall p hp)
    clear r4
    unfold onPointerUp
    rw [if_pos ⟨hhd, hm⟩]
  · rintro ⟨p, hp, hpf⟩
    have hhd : s2.hasDragged = true := by
      rw [r4, hd3, hd1, hd2, Bool.false_or, List.any_eq_true]
      exact ⟨p, hp, by simpa using hpf⟩
    have hnot : ¬ (s2.hasDragged = false ∧ m ≠ ViewMode.expanded) := by
      rw [hhd]; simp
    constructor
    · unfold onPointerUp
      rw [if_neg hnot]
      split_ifs <;> simp
    · intro hstack
      have hdr : s2.isDragging = true := by rw [r3]; exact hd4 hstack
      unfold onPointerUp
      rw [if_neg hnot, if_neg (by rw [hdr]; simp)]
      exact ⟨rfl, rfl, rfl⟩

/-- Initial pointer state of a freshly spawned card (card-stack.js 33-59). -/
def initCardPtr : CardPtr :=
  ⟨0, 0, 0, 0, false, 0, 0, 0, 0, false, 0, 0, 0, 0⟩

/-- Witness for C3: a stack-mode drag from (0,0) through (20,0) releases to
the origin rather than expanding. -/
theorem C3_click_vs_drag_witness :
    (onPointerUp ViewMode.stack (runMoves 0 0
      ((onPointerDown ViewMode.stack initCardPtr 0 0 0 0).1) [(20, 0)])).2 =
      UpOutcome.dragReleased :=
  (((C3_click_vs_drag ViewMode.stack (by decide) initCardPtr 0 0 0 0 [(20, 0)]).2
    ⟨(20, 0), by simp, by norm_num⟩).2 rfl).1

/-- Controller state of the CardStack relevant to mode transitions, grid
clones and expansion (card-stack.js lines 376-402).  cardZ holds the zIndex
of each card by spawn index; gridClones holds (source card index, column
offset) for each clone element; detailShownFor models the presenter
collaborator (showDetailPage sets it, hideDetailPage clears it).  Per-card
x/y positions, hover tracking and slide speeds are orthogonal fields not
read by the operations below except where noted in their comments. -/
structure Ctrl where
  cardZ : List ℤ
  viewMode : ViewMode
  previousViewMode : ViewMode
  expandedCard : Option ℕ
  detailShownFor : Option ℕ
  rowOffsets : List ℚ
  gridClones : List (ℕ × ℤ)
  expandedFromCloneOffset : ℤ
  expandedCardIndex : ℤ
deriving DecidableEq

/-- createGridClones, card-stack.js lines 534-580: for every card, four
clones at column offsets -2, -1, 1, 2 times the column count (3).  The DOM
elements and their listeners are presentation; a clone is modelled by its
source index and column offset. -/
def createGridClones (numCards : ℕ) : List (ℕ × ℤ) :=
  (List.range numCards).flatMap fun i =>
    [(-2 : ℤ), -1, 1, 2].map fun offset => (i, offset * 3)

/-- toggleViewMode, card-stack.js lines 489-510: stack to grid resets the
row offsets and clone-return tracking and creates the clones; the other
direction destroys all clones and returns to stack (prepareStackFromGrid
only adjusts per-card x/y, and the info-display calls are external). -/
def toggleViewMode (s : Ctrl) : Ctrl :=
  if s.viewMode = ViewMode.stack then
    { s with viewMode := ViewMode.grid,
             rowOffsets := [0, 0, 0],
             expandedFromCloneOffset := 0,
             expandedCardIndex := -1,
             gridClones := createGridClones s.cardZ.length }
  else
    { s with gridClones := [], viewMode := ViewMode.stack }

/-- Source position data passed by a clone click, card-stack.js lines
546-555. -/
structure FromPos where
  x : ℚ
  y : ℚ
  width : ℚ
  height : ℚ
  colOffset : ℤ
deriving DecidableEq

/-- expandCard, card-stack.js lines 656-694: records the clone offset (0
when not launched from a clone), remembers the previous mode, switches to
expanded and shows the detail page for the card.  The card x/y continuity
adjustment touches only per-card position, and the 300 ms deferred
row-offset fold only runs for a clone launch out of grid mode (fromPosition
with nonzero colOffset), which the claims below never exercise. -/
def expandCard (s : Ctrl) (cardIndex : ℕ) (fromPosition : Option FromPos) : Ctrl :=
  { s with expandedFromCloneOffset := (fromPosition.map FromPos.colOffset).getD 0,
           expandedCardIndex := (cardIndex : ℤ),
           previousViewMode := s.viewMode,
           viewMode := ViewMode.expanded,
           expandedCard := some cardIndex,
           detailShownFor := some cardIndex }

/-- collapseCard, card-stack.js lines 696-715: puts the expanded card at the
top rank, restores the previous mode, clears the expanded reference and
hides the detail page.  The 500 ms deferred hover reset touches only hover
and slide-speed fields; the stack-mode info display call is external. -/
def collapseCard (s : Ctrl) : Ctrl :=
  let cardZ := match s.expandedCard with
    | some c => s.cardZ.mapIdx fun i z => if i = c then (s.cardZ.length : ℤ) - 1 else z
    | none => s.cardZ
  { s with cardZ := cardZ,
           viewMode := s.previousViewMode,
           expandedCard := none,
           detailShownFor := none }

/-- C4: from stack or grid mode, expandCard moves to expanded mode
remembering the previous mode, records the expanded card and requests detail
content from the presenter; a following collapseCard restores the pre-expand
mode, clears the expanded card and requests presenter teardown. -/
theorem C4_expand_collapse (s : Ctrl) (m : ViewMode)
    (hm : m = ViewMode.stack ∨ m = ViewMode.grid) (hs : s.viewMode = m)
    (c : ℕ) :
    (expandCard s c none).viewMode = ViewMode.expanded ∧
    (expandCard s c none).previousViewMode = m ∧
    (expandCard s c none).expandedCard = some c ∧
    (expandCard s c none).detailShownFor = some c ∧
    (collapseCard (expandCard s c none)).viewMode = m ∧
    (collapseCard (expandCard s c none)).expandedCard = none ∧
    (collapseCard (expandCard s c none)).detailShownFor = none := by
  refine ⟨rfl, hs, rfl, rfl, hs, rfl, rfl⟩

/-- Witness for C4 with a two-card stack-mode controller expanding card 0. -/
theorem C4_expand_collapse_witness :
    (expandCard (Ctrl.mk [0, 1] ViewMode.stack ViewMode.stack none none
        [0, 0, 0] [] 0 (-1)) 0 none).viewMode = ViewMode.expanded ∧
    (expandCard (Ctrl.mk [0, 1] ViewMode.stack ViewMode.stack none none
        [0, 0, 0] [] 0 (-1)) 0 none).previousViewMode = ViewMode.stack ∧
    (expandCard (Ctrl.mk [0, 1] ViewMode.stack ViewMode.stack none none
        [0, 0, 0] [] 0 (-1)) 0 none).expandedCard = some 0 ∧
    (expandCard (Ctrl.mk [0, 1] ViewMode.stack ViewMode.stack none none
        [0, 0, 0] [] 0 (-1)) 0 none).detailShownFor = some 0 ∧
    (collapseCard (expandCard (Ctrl.mk [0, 1] ViewMode.stack ViewMode.stack none none
        [0, 0, 0] [] 0 (-1)) 0 none)).viewMode = ViewMode.stack ∧
    (collapseCard (expandCard (Ctrl.mk [0, 1] ViewMode.stack ViewMode.stack none none
        [0, 0, 0] [] 0 (-1)) 0 none)).expandedCard = none ∧
    (collapseCard (expandCard (Ctrl.mk [0, 1] ViewMode.stack ViewMode.stack none none
        [0, 0, 0] [] 0 (-1)) 0 none)).detailShownFor = none :=
  C4_expand_collapse _ ViewMode.stack (Or.inl rfl) rfl 0

theorem createGridClones_length (n : ℕ) : (createGridClones n).length = 4 * n := by
  induction n with
  | zero => rfl
  | succ k ih =>
    unfold createGridClones at ih ⊢
    rw [List.range_succ, List.flatMap_append, List.length_append, ih]
    rfl

/-- C6 (amended): from stack mode, toggling the view mode twice returns to
stack with the clone collection empty and row offsets [0,0,0]; from grid
mode, toggling twice returns to grid with row offsets [0,0,0] but the
clone collection is recreated with 4 clones per card, not emptied. -/
theorem C6_toggle_twice (s : Ctrl) :
    (s.viewMode = ViewMode.stack →
      (toggleViewMode (toggleViewMode s)).viewMode = ViewMode.stack ∧
      (toggleViewMode (toggleViewMode s)).gridClones = [] ∧
      (toggleViewMode (toggleViewMode s)).rowOffsets = [0, 0, 0]) ∧
    (s.viewMode = ViewMode.grid →
      (toggleViewMode (toggleViewMode s)).viewMode = ViewMode.grid ∧
      (toggleViewMode (toggleViewMode s)).rowOffsets = [0, 0, 0] ∧
      (toggleViewMode (toggleViewMode s)).gridClones.length = 4 * s.cardZ.length) := by
  constructor
  · intro h
    simp [toggleViewMode, h]
  · intro h
    simp [toggleViewMode, h, createGridClones_length]

/-- Witness for C6 from a two-card stack-mode controller. -/
theorem C6_toggle_twice_witness :
    (toggleViewMode (toggleViewMode (Ctrl.mk [0, 1] ViewMode.stack ViewMode.stack
        none none [0, 0, 0] [] 0 (-1)))).viewMode = ViewMode.stack ∧
    (toggleViewMode (toggleViewMode (Ctrl.mk [0, 1] ViewMode.stack ViewMode.stack
        none none [0, 0, 0] [] 0 (-1)))).gridClones = [] ∧
    (toggleViewMode (toggleViewMode (Ctrl.mk [0, 1] ViewMode.stack ViewMode.stack
        none none [0, 0, 0] [] 0 (-1)))).rowOffsets = [0, 0, 0] :=
  (C6_toggle_twice _).1 rfl

/-- Counterexample to C6 as stated: starting from grid mode with eight cards,
toggling twice does return to grid mode, but the clone collection holds the
32 recreated clones, not 0. -/
theorem C6_grid_start_clones_remain :
    (Ctrl.mk [0, 1, 2, 3, 4, 5, 6, 7] ViewMode.grid ViewMode.stack none none
        [0, 0, 0] (createGridClones 8) 0 (-1)).viewMode = ViewMode.grid ∧
    (toggleViewMode (toggleViewMode (Ctrl.mk [0, 1, 2, 3, 4, 5, 6, 7]
        ViewMode.grid ViewMode.stack none none
        [0, 0, 0] (createGridClones 8) 0 (-1)))).viewMode = ViewMode.grid ∧
    (toggleViewMode (toggleViewMode (Ctrl.mk [0, 1, 2, 3, 4, 5, 6, 7]
        ViewMode.grid ViewMode.stack none none
        [0, 0, 0] (createGridClones 8) 0 (-1)))).gridClones.length = 32 := by
  refine ⟨rfl, rfl, rfl⟩

/-- Constructor inputs read from the caller-supplied options object
(card-stack.js lines 358-374).  cardData, colors and infoDisplay are data
payload and DOM collaborators; radius bands may be supplied by the caller
but the constructor never reads them, so they appear here to express
configurations with degenerate bands. -/
structure CardStackOptions where
  maxCards : ℕ
  spawnInterval : ℕ
  baseScaleRadius : ℚ × ℚ
  baseSiblingRadius : ℚ × ℚ
deriving DecidableEq

/-- Configuration stored by the constructor in this.options. -/
structure CardStackConfig where
  maxCards : ℕ
  spawnInterval : ℕ
  baseCardWidth : ℚ
  baseCardHeight : ℚ
  baseScaleRadius : ℚ × ℚ
  baseSiblingRadius : ℚ × ℚ
deriving DecidableEq

/-- CardStack constructor, card-stack.js lines 358-408, restricted to the
stored configuration: it contains no validation and cannot signal an error
(the Except layer records that the source has no throw on any path), takes
maxCards and spawnInterval from the options with || defaults, and hard-codes
the base card size and both radius bands, discarding any caller-supplied
band values. -/
def mkCardStack (opts : CardStackOptions) : Except String CardStackConfig :=
  Except.ok
    { maxCards := if opts.maxCards = 0 then 8 else opts.maxCards,
      spawnInterval := if opts.spawnInterval = 0 then 100 else opts.spawnInterval,
      baseCardWidth := 400,
      baseCardHeight := 400,
      baseScaleRadius := (100, 300),
      baseSiblingRadius := (150, 350) }

/-- Counterexample to C8 as stated: a configuration whose radius bands are
degenerate (200, 200) is accepted without any error signal; construction
succeeds and silently replaces the bands with the hard-coded constants. -/
theorem C8_degenerate_band_accepted :
    ¬ ((CardStackOptions.mk 8 100 (200, 200) (200, 200)).baseScaleRadius.1 <
        (CardStackOptions.mk 8 100 (200, 200) (200, 200)).baseScaleRadius.2) ∧
    mkCardStack (CardStackOptions.mk 8 100 (200, 200) (200, 200)) =
      Except.ok (CardStackConfig.mk 8 100 400 400 (100, 300) (150, 350)) := by
  refine ⟨by norm_num, rfl⟩

/-- C8 (amended): the constructor performs no band validation and never
fails; for every options input it succeeds, and the stored bands are the
hard-coded non-degenerate constants, so the radius remapping denominators
are never zero. -/
theorem C8_constructor_total (opts : CardStackOptions) :
    ∃ cfg, mkCardStack opts = Except.ok cfg ∧
      cfg.baseScaleRadius.1 < cfg.baseScaleRadius.2 ∧
      cfg.baseSiblingRadius.1 < cfg.baseSiblingRadius.2 ∧
      cfg.baseScaleRadius.2 - cfg.baseScaleRadius.1 ≠ 0 ∧
      cfg.baseSiblingRadius.2 - cfg.baseSiblingRadius.1 ≠ 0 :=
  ⟨_, rfl, by norm_num, by norm_num, by norm_num, by norm_num⟩

/-- Truncation toward zero, the rounding JS uses for the % operator. -/
def truncQ (q : ℚ) : ℤ := if 0 ≤ q then ⌊q⌋ else ⌈q⌉

/-- The JS remainder x % m (sign of the dividend) for finite operands. -/
def jsMod (x m : ℚ) : ℚ := x - m * truncQ (x / m)

/-- The positive-modulo idiom ((x % m) + m) % m used at card-stack.js line
483. -/
def posMod (x m : ℚ) : ℚ := jsMod (jsMod x m + m) m

theorem truncQ_bounds (q : ℚ) : q - 1 < (truncQ q : ℚ) ∧ (truncQ q : ℚ) < q + 1 := by
  unfold truncQ
  split_ifs with h
  · refine ⟨Int.sub_one_lt_floor q, ?_⟩
    have := Int.floor_le q
    linarith
  · refine ⟨?_, Int.ceil_lt_add_one q⟩
    have := Int.le_ceil q
    linarith

theorem jsMod_bounds (x m : ℚ) (hm : 0 < m) : -m < jsMod x m ∧ jsMod x m < m := by
  obtain ⟨h1, h2⟩ := truncQ_bounds (x / m)
  have hxm : m * (x / m) = x := by
    field_simp
  unfold jsMod
  constructor <;> nlinarith

theorem jsMod_of_nonneg (x m : ℚ) (hm : 0 < m) (hx : 0 ≤ x) :
    0 ≤ jsMod x m ∧ jsMod x m < m := by
  have hq : 0 ≤ x / m := div_nonneg hx hm.le
  have hxm : m * (x / m) = x := by field_simp
  have h1 : (⌊x / m⌋ : ℚ) ≤ x / m := Int.floor_le _
  have h2 : x / m < ⌊x / m⌋ + 1 := Int.lt_floor_add_one _
  unfold jsMod truncQ
  rw [if_pos hq]
  constructor <;> nlinarith

theorem posMod_bounds (x m : ℚ) (hm : 0 < m) : 0 ≤ posMod x m ∧ posMod x m < m := by
  obtain ⟨h1, h2⟩ := jsMod_bounds x m hm
  exact jsMod_of_nonneg _ m hm (by linarith)

theorem posMod_sub_int (x m : ℚ) : ∃ k : ℤ, posMod x m = x - m * k := by
  refine ⟨truncQ (x / m) + truncQ ((jsMod x m + m) / m) - 1, ?_⟩
  unfold posMod jsMod
  push_cast
  ring

theorem posMod_period (x m : ℚ) (hm : 0 < m) : posMod (x + m) m = posMod x m := by
  obtain ⟨k1, h1⟩ := posMod_sub_int (x + m) m
  obtain ⟨k2, h2⟩ := posMod_sub_int x m
  obtain ⟨ha1, ha2⟩ := posMod_bounds (x + m) m hm
  obtain ⟨hb1, hb2⟩ := posMod_bounds x m hm
  have key : posMod (x + m) m - posMod x m = m * ((1 + k2 - k1 : ℤ) : ℚ) := by
    rw [h1, h2]
    push_cast
    ring
  have hK : (1 + k2 - k1 : ℤ) = 0 := by
    have hlt : m * ((1 + k2 - k1 : ℤ) : ℚ) < m * 1 := by
      rw [← key] at *
      linarith
    have hgt : m * (-1 : ℚ) < m * ((1 + k2 - k1 : ℤ) : ℚ) := by
      rw [← key] at *
      linarith
    have hc1 : ((1 + k2 - k1 : ℤ) : ℚ) < 1 := lt_of_mul_lt_mul_left hlt hm.le
    have hc2 : (-1 : ℚ) < ((1 + k2 - k1 : ℤ) : ℚ) := lt_of_mul_lt_mul_left hgt hm.le
    have hi1 : (1 + k2 - k1 : ℤ) < 1 := by exact_mod_cast hc1
    have hi2 : (-1 : ℤ) < (1 + k2 - k1 : ℤ) := by exact_mod_cast hc2
    omega
  rw [hK] at key
  push_cast at key
  linarith

/-- Grid-layout environment: the card count, the viewport scale factor, the
viewport height in px and the three per-row slide offsets (card-stack.js
reads this.cards.length, this.scaleFactor, window.innerHeight and
this.rowOffsets). -/
structure GridEnv where
  numCards : ℕ
  scaleFactor : ℚ
  innerHeight : ℚ
  rowOffsets : List ℚ
deriving DecidableEq

/-- getAdaptiveGridScale, card-stack.js lines 434-450: the scale making
ceil(n/3) rows of cards plus gaps fill 75 percent of the viewport height,
clamped to [0.4, 0.9]. -/
def getAdaptiveGridScale (e : GridEnv) : ℚ :=
  let cols : ℕ := 3
  let rows : ℕ := (e.numCards + cols - 1) / cols
  let gap := 16 * e.scaleFactor
  let targetHeight := e.innerHeight * (3/4)
  let cardHeight := 400 * e.scaleFactor
  let idealScale := (targetHeight - ((rows : ℚ) - 1) * gap) / ((rows : ℚ) * cardHeight)
  clamp idealScale (2/5) (9/10)

/-- Grid cell width 400 * scaleFactor * gridScale (card-stack.js line 462). -/
def cardWidthQ (e : GridEnv) : ℚ := 400 * e.scaleFactor * getAdaptiveGridScale e

/-- Grid gap 16 * scaleFactor * gapMultiplier with the multiplier
1 + (gridScale - 0.5) / (0.9 - 0.5) * 0.5 (card-stack.js lines 465-466). -/
def gapQ (e : GridEnv) : ℚ :=
  16 * e.scaleFactor * (1 + (getAdaptiveGridScale e - 1/2) / (9/10 - 1/2) * (1/2))

/-- Total width of the 3-column real grid (card-stack.js line 469). -/
def totalWidthQ (e : GridEnv) : ℚ := 3 * cardWidthQ e + (3 - 1) * gapQ e

/-- Total wrap width of real cards plus the 4 clone sets, (cols * 5) *
(cardWidth + gap) (card-stack.js line 480). -/
def totalGridWidthQ (e : GridEnv) : ℚ := (3 * 5) * (cardWidthQ e + gapQ e)

/-- Horizontal position before wrapping (card-stack.js lines 457-476):
column index plus column offset times the cell stride, centered, plus the
sliding offset of the row of this card. -/
def preWrapX (e : GridEnv) (cardIndex : ℕ) (colOffset : ℚ) : ℚ :=
  (((cardIndex % 3 : ℕ) : ℚ) + colOffset) * (cardWidthQ e + gapQ e)
    - totalWidthQ e / 2 + cardWidthQ e / 2
    + e.rowOffsets.getD (cardIndex / 3 % 3) 0

/-- Continuous wrap into (-totalGridWidth/2, totalGridWidth/2]
(card-stack.js lines 482-484). -/
def wrapX (e : GridEnv) (x : ℚ) : ℚ :=
  if posMod x (totalGridWidthQ e) > totalGridWidthQ e / 2
  then posMod x (totalGridWidthQ e) - totalGridWidthQ e
  else posMod x (totalGridWidthQ e)

/-- Result record of getGridPosition (card-stack.js line 486). -/
structure GridPos where
  x : ℚ
  y : ℚ
  row : ℕ
deriving DecidableEq

/-- getGridPosition, card-stack.js lines 452-487. -/
def getGridPosition (e : GridEnv) (cardIndex : ℕ) (colOffset : ℚ) : GridPos :=
  let rows : ℕ := (e.numCards + 3 - 1) / 3
  let row := cardIndex / 3
  let cardHeight := 400 * e.scaleFactor * getAdaptiveGridScale e
  let totalHeight := (rows : ℚ) * cardHeight + ((rows : ℚ) - 1) * gapQ e
  { x := wrapX e (preWrapX e cardIndex colOffset),
    y := (row : ℚ) * (cardHeight + gapQ e) - totalHeight / 2 + cardHeight / 2,
    row := row }

theorem adaptiveGridScale_mem (e : GridEnv) :
    2/5 ≤ getAdaptiveGridScale e ∧ getAdaptiveGridScale e ≤ 9/10 := by
  unfold getAdaptiveGridScale
  exact clamp_mem _ _ _ (by norm_num)

theorem totalGridWidthQ_pos (e : GridEnv) (hsf : 0 < e.scaleFactor) :
    0 < totalGridWidthQ e := by
  obtain ⟨h1, h2⟩ := adaptiveGridScale_mem e
  have hgs : 0 < getAdaptiveGridScale e := lt_of_lt_of_le (by norm_num) h1
  unfold totalGridWidthQ cardWidthQ gapQ
  have hg : (1 : ℚ) + (getAdaptiveGridScale e - 1/2) / (9/10 - 1/2) * (1/2) =
      getAdaptiveGridScale e * (5/4) + 3/8 := by ring
  rw [hg]
  nlinarith [mul_pos hsf hgs]

/-- C5: the wrapped x coordinate of getGridPosition is invariant under a
full wrap cycle of 5 * cols = 15 columns, and always lies in the half-open
interval (-totalGridWidth/2, totalGridWidth/2]. -/
theorem C5_grid_wrap (e : GridEnv) (hsf : 0 < e.scaleFactor)
    (hn : 1 ≤ e.numCards) (cardIndex : ℕ) (colOffset : ℚ) :
    (getGridPosition e cardIndex (colOffset + 5 * 3)).x =
      (getGridPosition e cardIndex colOffset).x ∧
    -(totalGridWidthQ e) / 2 < (getGridPosition e cardIndex colOffset).x ∧
    (getGridPosition e cardIndex colOffset).x ≤ totalGridWidthQ e / 2 := by
  have hpos := totalGridWidthQ_pos e hsf
  have hshift : preWrapX e cardIndex (colOffset + 5 * 3) =
      preWrapX e cardIndex colOffset + totalGridWidthQ e := by
    unfold preWrapX totalGridWidthQ
    ring
  have hx : ∀ c : ℚ, (getGridPosition e cardIndex c).x = wrapX e (preWrapX e cardIndex c) :=
    fun c => rfl
  refine ⟨?_, ?_⟩
  · rw [hx, hx, hshift]
    unfold wrapX
    rw [posMod_period _ _ hpos]
  · rw [hx]
    unfold wrapX
    obtain ⟨hp1, hp2⟩ := posMod_bounds (preWrapX e cardIndex colOffset) (totalGridWidthQ e) hpos
    split_ifs with h
    · constructor <;> linarith
    · constructor <;> linarith

/-- Witness for C5 with 8 cards, scale factor 1, viewport height 800 and
zero row offsets, at card 0 and column offset 0. -/
theorem C5_grid_wrap_witness :
    (getGridPosition (GridEnv.mk 8 1 800 [0, 0, 0]) 0 (0 + 5 * 3)).x =
      (getGridPosition (GridEnv.mk 8 1 800 [0, 0, 0]) 0 0).x ∧
    -(totalGridWidthQ (GridEnv.mk 8 1 800 [0, 0, 0])) / 2 <
      (getGridPosition (GridEnv.mk 8 1 800 [0, 0, 0]) 0 0).x ∧
    (getGridPosition (GridEnv.mk 8 1 800 [0, 0, 0]) 0 0).x ≤
      totalGridWidthQ (GridEnv.mk 8 1 800 [0, 0, 0]) / 2 :=
  C5_grid_wrap (GridEnv.mk 8 1 800 [0, 0, 0]) (by norm_num) (by norm_num) 0 0

/-- Math.round: half rounds toward positive infinity, equal to the floor of
q + 1/2. -/
def roundQ (q : ℚ) : ℤ := ⌊q + 1/2⌋

/-- The target rank computed by updateZIndexFromDistance, card-stack.js
lines 320-328: the distance from center is clamped into the scaled sibling
band and remapped linearly onto [maxIndex, 0], then rounded. -/
def distanceRank (numCards : ℕ) (scaleFactor dist : ℚ) : ℤ :=
  roundQ (remap (clamp dist (getScaledRadius scaleFactor RadiusType.sibling).1
      (getScaledRadius scaleFactor RadiusType.sibling).2)
    (getScaledRadius scaleFactor RadiusType.sibling).1
    (getScaledRadius scaleFactor RadiusType.sibling).2
    ((numCards : ℚ) - 1) 0)

/-- updateZIndexFromDistance, card-stack.js lines 320-334: when the computed
rank differs from the current zIndex the controller is asked to reorder
(updateCardOrder) with that rank; some r models that call, none models no
call. -/
def updateZIndexFromDistance (numCards : ℕ) (scaleFactor : ℚ) (zIndex : ℤ)
    (dist : ℚ) : Option ℤ :=
  if distanceRank numCards scaleFactor dist ≠ zIndex
  then some (distanceRank numCards scaleFactor dist)
  else none

/-- Counterexample to C7 as stated: with 8 cards, scale factor 1 and sibling
band [150, 350], a card at distance 400 from center gets target rank 0, not
a rank of roughly 3-4; the band is already fully traversed at distance
350. -/
theorem C7_rank_at_400_is_zero :
    distanceRank 8 1 400 = 0 ∧ distanceRank 8 1 400 < 3 := by
  norm_num [distanceRank, roundQ, remap, clamp, getScaledRadius, baseSiblingRadius]

/-- C7 (amended): with 8 cards, scale factor 1 and sibling band [150, 350],
the target rank is antitone in the distance from center and decreases from 7
at the center through 4 (roughly 3-4) at the band midpoint 250 down to 0 at
distance 400, and at distance 400 a card currently at rank 7 triggers
updateCardOrder with rank 0. -/
theorem C7_drag_rank :
    distanceRank 8 1 0 = 7 ∧ distanceRank 8 1 250 = 4 ∧ distanceRank 8 1 400 = 0 ∧
    (∀ d1 d2 : ℚ, d1 ≤ d2 → distanceRank 8 1 d2 ≤ distanceRank 8 1 d1) ∧
    updateZIndexFromDistance 8 1 7 400 = some 0 := by
  refine ⟨?_, ?_, ?_, ?_, ?_⟩
  · norm_num [distanceRank, roundQ, remap, clamp, getScaledRadius, baseSiblingRadius]
  · norm_num [distanceRank, roundQ, remap, clamp, getScaledRadius, baseSiblingRadius]
  · norm_num [distanceRank, roundQ, remap, clamp, getScaledRadius, baseSiblingRadius]
  · intro d1 d2 h
    unfold distanceRank roundQ
    apply Int.floor_le_floor
    have hc : clamp d1 (getScaledRadius 1 RadiusType.sibling).1
        (getScaledRadius 1 RadiusType.sibling).2 ≤
        clamp d2 (getScaledRadius 1 RadiusType.sibling).1
        (getScaledRadius 1 RadiusType.sibling).2 := clamp_mono _ _ _ _ h
    unfold remap
    simp only [getScaledRadius, baseSiblingRadius] at hc ⊢
    norm_num at hc ⊢
    linarith
  · have h0 : distanceRank 8 1 400 = 0 := by
      norm_num [distanceRank, roundQ, remap, clamp, getScaledRadius, baseSiblingRadius]
    unfold updateZIndexFromDistance
    rw [h0]
    norm_num

/-- Witness for C7: the antitone part at distances 200 and 300. -/
theorem C7_drag_rank_witness :
    distanceRank 8 1 300 ≤ distanceRank 8 1 200 :=
  (C7_drag_rank).2.2.2.1 200 300 (by norm_num)
